import Mathlib

/-!
Verification of the serdapt encoding-adapter crate against its specification.

The serde data model is embedded shallowly: serializers that cannot fail
produce an `SValue` tree; deserializers consume an `SValue` (or, for the byte
codec, a `BytesInput` describing the shape the external format hands to the
visitor) and return `Except SerdeError`.  Each adapter of the crate that the
claims mention is translated to a pair of Lean functions over this model,
following the corresponding Rust source function.
-/

namespace Serdapt

/-- Errors produced through the serde error constructors the crate uses:
`Error::invalid_length` (carrying the actual count and the display of the
expectation), `Error::invalid_type` (reached through default visitor methods),
and `Error::custom`. -/
inductive SerdeError where
  | invalidLength (actual : Nat) (expected : String)
  | invalidType (expected : String)
  | custom (msg : String)
deriving DecidableEq, Repr

/-- Model of the serde data model shapes exercised by the adapters under
verification: text, integers, byte blobs, sequences (also used for serde
tuples), maps, and options. -/
inductive SValue where
  | vstr (s : String)
  | vint (n : Int)
  | vbytes (bs : List Nat)
  | vseq (xs : List SValue)
  | vmap (es : List (SValue × SValue))
  | vnone
  | vsome (x : SValue)
deriving Repr

/-- Shallow embedding of an adapter for a value type `T`: the
`SerializeWith<T>` routine as a function into the value model and the
`DeserializeWith<'de, T>` routine as a fallible function out of it. -/
structure Adapter (T : Type) where
  ser : T → SValue
  de : SValue → Except SerdeError T

/-- An adapter whose deserialization inverts its serialization. -/
def Roundtrips {T : Type} (F : Adapter T) : Prop :=
  ∀ t, F.de (F.ser t) = Except.ok t

/-- Model of the `Id` adapter at type `Int`: it delegates to the native
`Serialize`/`Deserialize` of the value, which for an integer is the serde
integer primitive. -/
def IdIntAdapter : Adapter Int :=
  ⟨fun n => SValue.vint n,
    fun v =>
      match v with
      | SValue.vint n => Except.ok n
      | _ => Except.error (SerdeError.invalidType "an integer")⟩

/-- The `Id` adapter at `Int` round-trips definitionally. -/
theorem idIntAdapter_roundtrips : Roundtrips IdIntAdapter := fun _ => rfl

/-! ## Fixed-size array codec (`array.rs`) -/

/-- Model of `MaybeUninitArray<N, T>` as observed by its destructor:
`populated` lists the values written to slots `[0, populated.length)` in
write order, and `count` is the crate's counter field. -/
structure MaybeUninitArray (T : Type) where
  populated : List T
  count : Nat

/-- Display of `ExpectedArrayLength::<N>` in `array.rs`. -/
def expectedArrayLength (N : Nat) : String := "an array of length " ++ toString N

/-- One run of the `try_for_each` loop in `MaybeUninitArray::fill`: the loop
zips the `N` slots with the element stream, so it consumes at most `N` stream
items, stops at the end of the stream, and aborts on the first element error
(the `?` operator propagates it before the slot is written).  The result is
the list of values written together with the aborting error, if any. -/
def fillLoop {T : Type} : Nat → List (Except SerdeError T) → List T × Option SerdeError
  | 0, _ => ([], none)
  | _ + 1, [] => ([], none)
  | _ + 1, Except.error e :: _ => ([], some e)
  | n + 1, Except.ok x :: rest =>
      let r := fillLoop n rest
      (x :: r.1, r.2)

/-- Successfully decoded values preceding the first failure among the first
`N` stream items; this is the populated prefix the claims speak about. -/
def okRun {T : Type} : Nat → List (Except SerdeError T) → List T
  | 0, _ => []
  | _ + 1, [] => []
  | _ + 1, Except.error _ :: _ => []
  | n + 1, Except.ok x :: rest => x :: okRun n rest

/-- Steps of `MaybeUninitArray::fill` after its loop, given the loop outcome
`r` (values written, aborting error): an element error is propagated with the
buffer holding the written prefix; otherwise the length check fails with
`invalid_length` when fewer than `N` were written; on full success `count` is
reset to `0` and the items are moved out of the buffer. -/
def MaybeUninitArray.fillResult {T : Type} (N : Nat) (r : List T × Option SerdeError) :
    Except SerdeError (List T) × MaybeUninitArray T :=
  match r.2 with
  | some e => (Except.error e, ⟨r.1, r.1.length⟩)
  | none =>
      if r.1.length ≠ N then
        (Except.error (SerdeError.invalidLength r.1.length (expectedArrayLength N)),
          ⟨r.1, r.1.length⟩)
      else
        (Except.ok r.1, ⟨[], 0⟩)

/-- Model of `MaybeUninitArray::fill` starting from a fresh buffer
(`count = 0`): the function result is paired with the buffer state left
behind for `Drop`. -/
def MaybeUninitArray.fill {T : Type} (N : Nat) (stream : List (Except SerdeError T)) :
    Except SerdeError (List T) × MaybeUninitArray T :=
  MaybeUninitArray.fillResult N (fillLoop N stream)

/-- Model of `impl Drop for MaybeUninitArray`: the destructor calls
`assume_init_drop` on exactly the first `count` slots, so these are the
values it destroys, in order, each once. -/
def MaybeUninitArray.dropped {T : Type} (b : MaybeUninitArray T) : List T :=
  b.populated.take b.count

theorem fillLoop_fst_eq_okRun {T : Type} :
    ∀ (N : Nat) (stream : List (Except SerdeError T)), (fillLoop N stream).1 = okRun N stream := by
  intro N
  induction N with
  | zero => intro stream; rfl
  | succ n ih =>
      intro stream
      match stream with
      | [] => rfl
      | Except.error e :: rest => rfl
      | Except.ok x :: rest => simp [fillLoop, okRun, ih]

theorem fillLoop_map_ok {T : Type} :
    ∀ (N : Nat) (xs : List T), fillLoop N (xs.map Except.ok) = (xs.take N, none) := by
  intro N
  induction N with
  | zero => intro xs; rfl
  | succ n ih =>
      intro xs
      match xs with
      | [] => rfl
      | x :: rest => simp [fillLoop, ih]

/-- C1: whenever `MaybeUninitArray::fill` aborts with an error (an element
decode failure, or the premature end of the stream after `k < N` writes), the
buffer state left for `Drop` destroys exactly the `k` populated slots, namely
the successfully decoded prefix of the stream, each exactly once and in write
order, and touches no unpopulated slot (`count` equals the number of
populated slots, and the destructor takes exactly `count` slots); on full
success `count` is reset to `0` so the destructor destroys nothing. -/
theorem maybeUninitArray_fill_teardown {T : Type} (N : Nat)
    (stream : List (Except SerdeError T)) :
    (∀ e, (MaybeUninitArray.fill N stream).1 = Except.error e →
        (MaybeUninitArray.fill N stream).2.dropped = okRun N stream ∧
        (MaybeUninitArray.fill N stream).2.populated = okRun N stream ∧
        (MaybeUninitArray.fill N stream).2.count =
          (MaybeUninitArray.fill N stream).2.populated.length) ∧
    (∀ xs, (MaybeUninitArray.fill N stream).1 = Except.ok xs →
        (MaybeUninitArray.fill N stream).2.count = 0 ∧
        (MaybeUninitArray.fill N stream).2.dropped = []) := by
  have hfst : (fillLoop N stream).1 = okRun N stream := fillLoop_fst_eq_okRun N stream
  unfold MaybeUninitArray.fill
  rcases hfl : fillLoop N stream with ⟨l, o⟩
  have hl : l = okRun N stream := by rw [← hfst, hfl]
  subst hl
  cases o with
  | some e2 =>
      refine ⟨fun e he => ?_, fun xs hxs => ?_⟩
      · simp [MaybeUninitArray.fillResult, MaybeUninitArray.dropped, List.take_length]
      · simp [MaybeUninitArray.fillResult] at hxs
  | none =>
      by_cases hNe : (okRun N stream : List T).length = N
      · refine ⟨fun e he => ?_, fun xs hxs => ?_⟩
        · simp [MaybeUninitArray.fillResult, hNe] at he
        · simp [MaybeUninitArray.fillResult, MaybeUninitArray.dropped, hNe]
      · refine ⟨fun e he => ?_, fun xs hxs => ?_⟩
        · simp [MaybeUninitArray.fillResult, MaybeUninitArray.dropped, hNe,
            List.take_length]
        · simp [MaybeUninitArray.fillResult, hNe] at hxs

/-- Witness for C1 at a concrete aborted fill: decoding fails on the second
element after one element was written, and teardown destroys exactly that
one element. -/
theorem maybeUninitArray_fill_teardown_witness :
    (MaybeUninitArray.fill 3
        [Except.ok (5 : Int), Except.error (SerdeError.custom "boom")]).2.dropped =
      okRun 3 [Except.ok (5 : Int), Except.error (SerdeError.custom "boom")] ∧
    (MaybeUninitArray.fill 3
        [Except.ok (5 : Int), Except.error (SerdeError.custom "boom")]).2.populated =
      okRun 3 [Except.ok (5 : Int), Except.error (SerdeError.custom "boom")] ∧
    (MaybeUninitArray.fill 3
        [Except.ok (5 : Int), Except.error (SerdeError.custom "boom")]).2.count =
      (MaybeUninitArray.fill 3
        [Except.ok (5 : Int), Except.error (SerdeError.custom "boom")]).2.populated.length :=
  (maybeUninitArray_fill_teardown 3
      [Except.ok (5 : Int), Except.error (SerdeError.custom "boom")]).1
    (SerdeError.custom "boom") rfl

/-- Model of `Array::<F>::serialize` for `[T; N]` (`SerializeWith<[T; N]>`):
the array is emitted as a serde tuple whose elements go through the inner
adapter `F`. -/
def arraySerialize {T : Type} (F : Adapter T) (xs : List T) : SValue :=
  SValue.vseq (xs.map F.ser)

/-- Model of `Array::<F>::deserialize` for `[T; N]`
(`DeserializeWith<'de, [T; N]>`): `deserialize_tuple` drives
`ArrayVisitor::visit_seq`, which fills a fresh `MaybeUninitArray` from the
stream of per-element decodes through the inner adapter `F`. -/
def arrayDeserialize {T : Type} (N : Nat) (F : Adapter T) :
    SValue → Except SerdeError (List T)
  | SValue.vseq items => (MaybeUninitArray.fill N (items.map F.de)).1
  | _ => Except.error (SerdeError.invalidType (expectedArrayLength N))

/-- C2: decoding a stream of exactly `N` successfully-decoded elements through
`Array::deserialize` returns the `N` elements in stream order; a stream
exhausted after `k < N` elements fails with `invalid_length` reporting the
actual count `k` against the expectation describing length `N`; for `N = 0`
decoding succeeds on every stream without reading any element (in particular
even when every element of the stream would fail to decode). -/
theorem array_deserialize_length_spec {T : Type} (N : Nat) (F : Adapter T)
    (vs : List SValue) (xs : List T) (h : vs.map F.de = xs.map Except.ok) :
    (xs.length = N → arrayDeserialize N F (SValue.vseq vs) = Except.ok xs) ∧
    (xs.length < N → arrayDeserialize N F (SValue.vseq vs) =
      Except.error (SerdeError.invalidLength xs.length (expectedArrayLength N))) ∧
    (∀ ws : List SValue, arrayDeserialize 0 F (SValue.vseq ws) = Except.ok []) := by
  have hfill :
      MaybeUninitArray.fill N (vs.map F.de) =
        MaybeUninitArray.fillResult N (xs.take N, none) := by
    rw [MaybeUninitArray.fill, h, fillLoop_map_ok]
  refine ⟨fun hlen => ?_, fun hlt => ?_, fun ws => ?_⟩
  · rw [arrayDeserialize, hfill]
    have : xs.take N = xs := by rw [← hlen]; exact List.take_length xs
    simp [MaybeUninitArray.fillResult, this, hlen]
  · rw [arrayDeserialize, hfill]
    have htake : xs.take N = xs := List.take_of_length_le (Nat.le_of_lt hlt)
    have hne : xs.length ≠ N := Nat.ne_of_lt hlt
    simp [MaybeUninitArray.fillResult, htake, hne]
  · rw [arrayDeserialize]
    cases hfl : (ws.map F.de) <;>
      simp [MaybeUninitArray.fill, MaybeUninitArray.fillResult, fillLoop]

/-- Witness for C2: a three-element stream decoded into a 3-array succeeds in
order, the same stream against a 4-array fails with the length error, and the
0-array decode of that stream succeeds. -/
theorem array_deserialize_length_spec_witness :
    arrayDeserialize 3 IdIntAdapter
        (SValue.vseq [SValue.vint 7, SValue.vint 8, SValue.vint 9]) =
      Except.ok [7, 8, 9] ∧
    arrayDeserialize 4 IdIntAdapter
        (SValue.vseq [SValue.vint 7, SValue.vint 8, SValue.vint 9]) =
      Except.error (SerdeError.invalidLength 3 (expectedArrayLength 4)) ∧
    arrayDeserialize 0 IdIntAdapter
        (SValue.vseq [SValue.vint 7, SValue.vint 8, SValue.vint 9]) =
      Except.ok [] := by
  have h3 := array_deserialize_length_spec 3 IdIntAdapter
    [SValue.vint 7, SValue.vint 8, SValue.vint 9] [7, 8, 9] rfl
  have h4 := array_deserialize_length_spec 4 IdIntAdapter
    [SValue.vint 7, SValue.vint 8, SValue.vint 9] [7, 8, 9] rfl
  exact ⟨h3.1 rfl, h4.2.1 (by decide), h3.2.2 _⟩

/-! ## Textual integer codec (`str.rs`)

The `Str` adapter delegates to the external standard `Display` and `FromStr`
implementations of the value type.  For integers these are the usual decimal
writer and parser, modelled here over character lists. -/

/-- Decimal digit character, as produced by the standard integer display. -/
def digitChar (d : Nat) : Char := Char.ofNat (48 + d)

/-- Decimal digits of a natural number, most significant first, as emitted by
the standard display implementation that `Str` relies on. -/
def natDigitsBig (n : Nat) : List Nat :=
  if n = 0 then [0] else (Nat.digits 10 n).reverse

/-- Character string of a natural number (the display output that
`collect_str` receives for the unsigned part of an integer). -/
def natChars (n : Nat) : List Char := (natDigitsBig n).map digitChar

/-- Value of a decimal digit character, as accepted by the standard decimal
integer parser. -/
def charDigit? (c : Char) : Option Nat :=
  if 48 ≤ c.toNat ∧ c.toNat ≤ 57 then some (c.toNat - 48) else none

/-- Digit values of a character list; fails on the first non-digit. -/
def parseNatDigits : List Char → Option (List Nat)
  | [] => some []
  | c :: cs => do
      let d ← charDigit? c
      let ds ← parseNatDigits cs
      pure (d :: ds)

/-- Model of the standard unsigned decimal parser: at least one character,
all characters digits, most significant first. -/
def parseNatChars (cs : List Char) : Option Nat :=
  if cs.isEmpty then none
  else (parseNatDigits cs).map (fun ds => Nat.ofDigits 10 ds.reverse)

/-- Display of an integer: a leading minus sign for negative values, then the
decimal digits of the absolute value. -/
def intChars (i : Int) : List Char :=
  if i < 0 then '-' :: natChars i.natAbs else natChars i.natAbs

/-- Model of the standard signed decimal parser that `FromStr` provides for
integers. -/
def parseIntChars : List Char → Option Int
  | [] => none
  | c :: rest =>
      if c = '-' then (parseNatChars rest).map (fun n => -(Int.ofNat n))
      else (parseNatChars (c :: rest)).map (fun n => Int.ofNat n)

theorem charDigit_digitChar {d : Nat} (hd : d < 10) :
    charDigit? (digitChar d) = some d := by
  interval_cases d <;> decide

theorem digitChar_ne_minus {d : Nat} (hd : d < 10) : digitChar d ≠ '-' := by
  interval_cases d <;> decide

theorem natDigitsBig_lt (n : Nat) : ∀ d ∈ natDigitsBig n, d < 10 := by
  intro d hd
  unfold natDigitsBig at hd
  by_cases h : n = 0
  · rw [if_pos h] at hd
    simp at hd
    omega
  · rw [if_neg h, List.mem_reverse] at hd
    exact Nat.digits_lt_base (by norm_num) hd

theorem natDigitsBig_ne_nil (n : Nat) : natDigitsBig n ≠ [] := by
  unfold natDigitsBig
  by_cases h : n = 0
  · simp [h]
  · rw [if_neg h]
    simp [Nat.digits_ne_nil_iff_ne_zero, h]

theorem ofDigits_natDigitsBig (n : Nat) : Nat.ofDigits 10 (natDigitsBig n).reverse = n := by
  unfold natDigitsBig
  by_cases h : n = 0
  · simp [h, Nat.ofDigits]
  · rw [if_neg h, List.reverse_reverse, Nat.ofDigits_digits]

theorem parseNatDigits_map (ds : List Nat) (h : ∀ d ∈ ds, d < 10) :
    parseNatDigits (ds.map digitChar) = some ds := by
  induction ds with
  | nil => rfl
  | cons d rest ih =>
      have hd : charDigit? (digitChar d) = some d := charDigit_digitChar (h d (by simp))
      have hrest := ih (fun x hx => h x (by simp [hx]))
      simp [parseNatDigits, hd, hrest]

theorem parseNatChars_natChars (n : Nat) : parseNatChars (natChars n) = some n := by
  have hne : natDigitsBig n ≠ [] := natDigitsBig_ne_nil n
  have hisEmpty : ((natDigitsBig n).map digitChar).isEmpty = false := by
    simp [List.isEmpty_iff, hne]
  rw [parseNatChars, natChars, hisEmpty]
  simp [parseNatDigits_map _ (natDigitsBig_lt n), ofDigits_natDigitsBig]

theorem parseIntChars_intChars (i : Int) : parseIntChars (intChars i) = some i := by
  by_cases hneg : i < 0
  · rw [intChars, if_pos hneg]
    have hstep : parseIntChars ('-' :: natChars i.natAbs) =
        (parseNatChars (natChars i.natAbs)).map (fun n => -(Int.ofNat n)) := by
      simp [parseIntChars]
    rw [hstep, parseNatChars_natChars]
    simp only [Option.map_some']
    congr 1
    rw [Int.ofNat_eq_natCast]
    omega
  · rw [intChars, if_neg hneg]
    rcases hds : natDigitsBig i.natAbs with _ | ⟨d, ds⟩
    · exact absurd hds (natDigitsBig_ne_nil _)
    · have hd10 : d < 10 := natDigitsBig_lt _ d (by rw [hds]; simp)
      have hcne : digitChar d ≠ '-' := digitChar_ne_minus hd10
      have hchars : natChars i.natAbs = digitChar d :: ds.map digitChar := by
        rw [natChars, hds]; rfl
      rw [hchars, parseIntChars, if_neg hcne, ← hchars, parseNatChars_natChars]
      simp only [Option.map_some']
      congr 1
      rw [Int.ofNat_eq_natCast]
      omega

/-- Model of the `Str` adapter at integer type: serialization goes through
`collect_str` on the integer display; deserialization through
`deserialize_str` with `StrVisitor`, which parses the string and surfaces a
parse failure as a custom error. -/
def StrIntAdapter : Adapter Int :=
  ⟨fun i => SValue.vstr (String.mk (intChars i)),
    fun v =>
      match v with
      | SValue.vstr s =>
          match parseIntChars s.data with
          | some i => Except.ok i
          | none => Except.error (SerdeError.custom "invalid digit found in string")
      | _ => Except.error (SerdeError.invalidType "a string")⟩

theorem strIntAdapter_roundtrips : Roundtrips StrIntAdapter := by
  intro i
  show (match parseIntChars (String.mk (intChars i)).data with
      | some j => Except.ok j
      | none => Except.error (SerdeError.custom "invalid digit found in string")) =
    Except.ok i
  rw [show (String.mk (intChars i)).data = intChars i from rfl, parseIntChars_intChars]

/-! ## Byte-sequence codec, owned buffer (`bytes.rs`, `VecVisitor`) -/

/-- Decode of a single `u8` sequence element through its native
`Deserialize`, in the value model. -/
def byteDe : SValue → Except SerdeError Nat
  | SValue.vint n =>
      if 0 ≤ n ∧ n < 256 then Except.ok n.toNat
      else Except.error (SerdeError.invalidType "u8")
  | _ => Except.error (SerdeError.invalidType "u8")

/-- Model of `VecVisitor::visit_seq`: push every element into the vector
until the sequence ends, propagating the first element failure. -/
def vecVisitSeq : List (Except SerdeError Nat) → Except SerdeError (List Nat)
  | [] => Except.ok []
  | Except.error e :: _ => Except.error e
  | Except.ok b :: rest => (vecVisitSeq rest).map (fun bs => b :: bs)

/-- UTF-8 bytes of a string, as produced by `str::as_bytes` and
`String::into_bytes`. -/
def strBytes (s : String) : List Nat := s.toUTF8.toList.map (fun b => b.toNat)

/-- Model of the `Bytes` adapter at `Vec<u8>`: serialization through
`serialize_bytes`; deserialization through `deserialize_byte_buf` with
`VecVisitor`, which accepts byte blobs, strings (as their UTF-8 bytes) and
generic sequences. -/
def BytesVecAdapter : Adapter (List Nat) :=
  ⟨fun bs => SValue.vbytes bs,
    fun v =>
      match v with
      | SValue.vbytes bs => Except.ok bs
      | SValue.vstr s => Except.ok (strBytes s)
      | SValue.vseq items => vecVisitSeq (items.map byteDe)
      | _ => Except.error (SerdeError.invalidType "bytes")⟩

theorem bytesVecAdapter_roundtrips : Roundtrips BytesVecAdapter := fun _ => rfl

/-! ## Container and wrapper adapters -/

/-- The `Array` adapter packaged as an `Adapter` on lists standing for
`[T; N]` values. -/
def ArrayAdapter {T : Type} (N : Nat) (F : Adapter T) : Adapter (List T) :=
  ⟨arraySerialize F, arrayDeserialize N F⟩

/-- Model of `MapVisitor::visit_map` over the entry stream: each entry's key
and value are decoded through the inner adapters and collected. -/
def mapVisitSeq {K V : Type} (F : Adapter K) (G : Adapter V) :
    List (SValue × SValue) → Except SerdeError (List (K × V))
  | [] => Except.ok []
  | kv :: rest => do
      let k ← F.de kv.1
      let v ← G.de kv.2
      let tail ← mapVisitSeq F G rest
      pure ((k, v) :: tail)

/-- Model of `Map::<F, G>` over the entry list of the container
(`collect_map` on serialize, `deserialize_map` with `MapVisitor` on
deserialize). -/
def MapAdapter {K V : Type} (F : Adapter K) (G : Adapter V) :
    Adapter (List (K × V)) :=
  ⟨fun es => SValue.vmap (es.map (fun kv => (F.ser kv.1, G.ser kv.2))),
    fun v =>
      match v with
      | SValue.vmap es => mapVisitSeq F G es
      | _ => Except.error (SerdeError.invalidType "a map")⟩

/-- Model of `Option::<F>`: `Some` and `None` map to the serde option
primitives, with the payload going through the inner adapter. -/
def OptionAdapter {T : Type} (F : Adapter T) : Adapter (Option T) :=
  ⟨fun x =>
      match x with
      | none => SValue.vnone
      | some t => SValue.vsome (F.ser t),
    fun v =>
      match v with
      | SValue.vnone => Except.ok none
      | SValue.vsome w => (F.de w).map some
      | _ => Except.error (SerdeError.invalidType "option")⟩

/-- Model of `core::ops::Range` (fields `start` and `end`; the latter is a
Lean keyword, hence `stop`). -/
structure CoreRange (T : Type) where
  start : T
  stop : T

/-- Model of `Range::<F>` for `core::ops::Range`: serde serializes the range
struct field by field, each index going through the inner adapter. -/
def RangeAdapter {T : Type} (F : Adapter T) : Adapter (CoreRange T) :=
  ⟨fun r => SValue.vmap
      [(SValue.vstr "start", F.ser r.start), (SValue.vstr "end", F.ser r.stop)],
    fun v =>
      match v with
      | SValue.vmap ((SValue.vstr f1, x) :: (SValue.vstr f2, y) :: []) =>
          if f1 = "start" ∧ f2 = "end" then do
            let s ← F.de x
            let e ← F.de y
            pure (CoreRange.mk s e)
          else Except.error (SerdeError.invalidType "a range")
      | _ => Except.error (SerdeError.invalidType "a range")⟩

/-- Model of the tuple adapter instance `(A0, A1)` for pairs: the tuple is
serialized element-wise through the paired adapters. -/
def PairAdapter {A B : Type} (F : Adapter A) (G : Adapter B) : Adapter (A × B) :=
  ⟨fun p => SValue.vseq [F.ser p.1, G.ser p.2],
    fun v =>
      match v with
      | SValue.vseq (x :: y :: []) => do
          let a ← F.de x
          let b ← G.de y
          pure (a, b)
      | _ => Except.error (SerdeError.invalidType "a tuple of size 2")⟩

/-- Model of `core::num::Wrapping`. -/
structure NumWrapping (T : Type) where
  val : T

/-- Model of `Wrapping::<F>`: serde treats `Wrapping` transparently, so the
inner value goes through the inner adapter unchanged. -/
def WrappingAdapter {T : Type} (F : Adapter T) : Adapter (NumWrapping T) :=
  ⟨fun w => F.ser w.val, fun v => (F.de v).map NumWrapping.mk⟩

theorem arrayAdapter_de_ser {T : Type} (N : Nat) (F : Adapter T) (hF : Roundtrips F)
    (xs : List T) (hlen : xs.length = N) :
    (ArrayAdapter N F).de ((ArrayAdapter N F).ser xs) = Except.ok xs := by
  show arrayDeserialize N F (arraySerialize F xs) = Except.ok xs
  have hmap : (xs.map F.ser).map F.de = xs.map Except.ok := by
    rw [List.map_map]
    exact List.map_congr_left (fun a _ => hF a)
  rw [arraySerialize, arrayDeserialize, MaybeUninitArray.fill, hmap, fillLoop_map_ok]
  have htake : xs.take N = xs := by rw [← hlen]; exact List.take_length xs
  simp [MaybeUninitArray.fillResult, htake, hlen]

theorem mapAdapter_roundtrips {K V : Type} (F : Adapter K) (G : Adapter V)
    (hF : Roundtrips F) (hG : Roundtrips G) : Roundtrips (MapAdapter F G) := by
  intro es
  show mapVisitSeq F G (es.map (fun kv => (F.ser kv.1, G.ser kv.2))) = Except.ok es
  induction es with
  | nil => rfl
  | cons kv rest ih =>
      simp [mapVisitSeq, hF kv.1, hG kv.2, ih]
      rfl

theorem optionAdapter_roundtrips {T : Type} (F : Adapter T) (hF : Roundtrips F) :
    Roundtrips (OptionAdapter F) := by
  intro x
  cases x with
  | none => rfl
  | some t =>
      simp [OptionAdapter, hF t]
      rfl

theorem rangeAdapter_roundtrips {T : Type} (F : Adapter T) (hF : Roundtrips F) :
    Roundtrips (RangeAdapter F) := by
  intro r
  simp [RangeAdapter, hF r.start, hF r.stop]
  rfl

theorem pairAdapter_roundtrips {A B : Type} (F : Adapter A) (G : Adapter B)
    (hF : Roundtrips F) (hG : Roundtrips G) : Roundtrips (PairAdapter F G) := by
  intro p
  simp [PairAdapter, hF p.1, hG p.2]
  rfl

theorem wrappingAdapter_roundtrips {T : Type} (F : Adapter T) (hF : Roundtrips F) :
    Roundtrips (WrappingAdapter F) := by
  intro w
  simp [WrappingAdapter, hF w.val]
  rfl

/-- C3: round-trip law — for each adapter family of the library named by the
claim (integers via text through `Str`, byte buffers through `Bytes`,
fixed-size arrays through `Array`, maps through `Map`, options through
`Option`, ranges through `Range`, tuples through the tuple instances, and
wrapped numerics through `Wrapping`), deserializing the serialization of a
supported value yields the value back; each container family round-trips for
every inner adapter that itself round-trips. -/
theorem adapter_round_trip_law :
    Roundtrips StrIntAdapter ∧
    Roundtrips BytesVecAdapter ∧
    (∀ (T : Type) (F : Adapter T), Roundtrips F → ∀ (N : Nat) (xs : List T),
      xs.length = N →
      (ArrayAdapter N F).de ((ArrayAdapter N F).ser xs) = Except.ok xs) ∧
    (∀ (K V : Type) (F : Adapter K) (G : Adapter V),
      Roundtrips F → Roundtrips G → Roundtrips (MapAdapter F G)) ∧
    (∀ (T : Type) (F : Adapter T), Roundtrips F → Roundtrips (OptionAdapter F)) ∧
    (∀ (T : Type) (F : Adapter T), Roundtrips F → Roundtrips (RangeAdapter F)) ∧
    (∀ (A B : Type) (F : Adapter A) (G : Adapter B),
      Roundtrips F → Roundtrips G → Roundtrips (PairAdapter F G)) ∧
    (∀ (T : Type) (F : Adapter T), Roundtrips F → Roundtrips (WrappingAdapter F)) :=
  ⟨strIntAdapter_roundtrips, bytesVecAdapter_roundtrips,
    fun _ F hF N xs hlen => arrayAdapter_de_ser N F hF xs hlen,
    fun _ _ F G hF hG => mapAdapter_roundtrips F G hF hG,
    fun _ F hF => optionAdapter_roundtrips F hF,
    fun _ F hF => rangeAdapter_roundtrips F hF,
    fun _ _ F G hF hG => pairAdapter_roundtrips F G hF hG,
    fun _ F hF => wrappingAdapter_roundtrips F hF⟩

/-- Witness for C3 at concrete inputs: a negative integer through `Str`, a
byte buffer, a 2-array, a one-entry map, an option, a range, a pair and a
wrapped numeric all round-trip, with the container hypotheses discharged by
the identity adapter on integers. -/
theorem adapter_round_trip_law_witness :
    StrIntAdapter.de (StrIntAdapter.ser (-37)) = Except.ok (-37) ∧
    BytesVecAdapter.de (BytesVecAdapter.ser [0, 255, 7]) = Except.ok [0, 255, 7] ∧
    (ArrayAdapter 2 IdIntAdapter).de ((ArrayAdapter 2 IdIntAdapter).ser [3, 4]) =
      Except.ok [3, 4] ∧
    (MapAdapter IdIntAdapter IdIntAdapter).de
        ((MapAdapter IdIntAdapter IdIntAdapter).ser [(1, 2)]) = Except.ok [(1, 2)] ∧
    (OptionAdapter IdIntAdapter).de ((OptionAdapter IdIntAdapter).ser (some 5)) =
      Except.ok (some 5) ∧
    (RangeAdapter IdIntAdapter).de
        ((RangeAdapter IdIntAdapter).ser (CoreRange.mk 1 3)) =
      Except.ok (CoreRange.mk 1 3) ∧
    (PairAdapter IdIntAdapter IdIntAdapter).de
        ((PairAdapter IdIntAdapter IdIntAdapter).ser (8, 9)) = Except.ok (8, 9) ∧
    (WrappingAdapter IdIntAdapter).de
        ((WrappingAdapter IdIntAdapter).ser (NumWrapping.mk 6)) =
      Except.ok (NumWrapping.mk 6) :=
  ⟨adapter_round_trip_law.1 (-37),
    adapter_round_trip_law.2.1 [0, 255, 7],
    adapter_round_trip_law.2.2.1 Int IdIntAdapter (fun _ => rfl) 2 [3, 4] rfl,
    adapter_round_trip_law.2.2.2.1 Int Int IdIntAdapter IdIntAdapter
      (fun _ => rfl) (fun _ => rfl) [(1, 2)],
    adapter_round_trip_law.2.2.2.2.1 Int IdIntAdapter (fun _ => rfl) (some 5),
    adapter_round_trip_law.2.2.2.2.2.1 Int IdIntAdapter (fun _ => rfl) (CoreRange.mk 1 3),
    adapter_round_trip_law.2.2.2.2.2.2.1 Int Int IdIntAdapter IdIntAdapter
      (fun _ => rfl) (fun _ => rfl) (8, 9),
    adapter_round_trip_law.2.2.2.2.2.2.2 Int IdIntAdapter (fun _ => rfl)
      (NumWrapping.mk 6)⟩

/-! ## Byte-sequence codec, fixed and borrowed targets (`bytes.rs`) -/

/-- Shapes an external format can hand to a byte visitor: borrowed, owned or
transient byte blobs; borrowed, owned or transient text (carried as its UTF-8
byte content); or a generic sequence whose elements decode as `u8`. -/
inductive BytesInput where
  | borrowedBytes (bs : List Nat)
  | byteBuf (bs : List Nat)
  | transientBytes (bs : List Nat)
  | borrowedStr (bs : List Nat)
  | ownedStr (bs : List Nat)
  | transientStr (bs : List Nat)
  | byteSeq (items : List (Except SerdeError Nat))
deriving Repr

/-- Display of the expectation of `ArrayVisitor` in `bytes.rs`. -/
def expectedByteArrayMsg (N : Nat) : String :=
  "a byte array of " ++ toString N ++ " bytes"

/-- Model of `ArrayVisitor::<N>::visit_bytes` (also reached from the string
methods through `as_bytes`): `try_into` succeeds exactly for length `N`. -/
def visitBytesArray (N : Nat) (bs : List Nat) : Except SerdeError (List Nat) :=
  if bs.length = N then Except.ok bs
  else Except.error (SerdeError.invalidLength bs.length (expectedByteArrayMsg N))

/-- Model of the loop of `ArrayVisitor::<N>::visit_seq`, with `rem` slots
still to fill and `i` elements already read: a missing element fails with
`invalid_length i`, an element failure propagates, and exactly `N` elements
are read in total (surplus elements are left unread). -/
def seqByteArrayGo (N : Nat) :
    Nat → Nat → List (Except SerdeError Nat) → Except SerdeError (List Nat)
  | 0, _, _ => Except.ok []
  | _ + 1, i, [] => Except.error (SerdeError.invalidLength i (expectedByteArrayMsg N))
  | _ + 1, _, Except.error e :: _ => Except.error e
  | rem + 1, i, Except.ok b :: rest =>
      (seqByteArrayGo N rem (i + 1) rest).map (fun bs => b :: bs)

/-- Model of `Bytes::deserialize` for `[u8; N]`: `deserialize_bytes` drives
`ArrayVisitor::<N>`; serde's default visitor methods funnel every byte or
text shape into `visit_bytes`/`visit_str`, and sequences go through
`visit_seq`. -/
def bytesArrayDeserialize (N : Nat) : BytesInput → Except SerdeError (List Nat)
  | BytesInput.borrowedBytes bs => visitBytesArray N bs
  | BytesInput.byteBuf bs => visitBytesArray N bs
  | BytesInput.transientBytes bs => visitBytesArray N bs
  | BytesInput.borrowedStr bs => visitBytesArray N bs
  | BytesInput.ownedStr bs => visitBytesArray N bs
  | BytesInput.transientStr bs => visitBytesArray N bs
  | BytesInput.byteSeq items => seqByteArrayGo N N 0 items

/-- Number of bytes (or sequence elements) an input offers. -/
def BytesInput.len : BytesInput → Nat
  | BytesInput.borrowedBytes bs => bs.length
  | BytesInput.byteBuf bs => bs.length
  | BytesInput.transientBytes bs => bs.length
  | BytesInput.borrowedStr bs => bs.length
  | BytesInput.ownedStr bs => bs.length
  | BytesInput.transientStr bs => bs.length
  | BytesInput.byteSeq items => items.length

theorem seqByteArrayGo_ok (N : Nat) :
    ∀ (rem i : Nat) (xs : List Nat),
      (rem ≤ xs.length →
        seqByteArrayGo N rem i (xs.map Except.ok) = Except.ok (xs.take rem)) ∧
      (xs.length < rem →
        seqByteArrayGo N rem i (xs.map Except.ok) =
          Except.error (SerdeError.invalidLength (i + xs.length) (expectedByteArrayMsg N))) := by
  intro rem
  induction rem with
  | zero =>
      intro i xs
      exact ⟨fun _ => rfl, fun h => absurd h (Nat.not_lt_zero _)⟩
  | succ r ih =>
      intro i xs
      match xs with
      | [] =>
          refine ⟨fun h => absurd h (by simp), fun _ => ?_⟩
          simp [seqByteArrayGo]
      | b :: rest =>
          constructor
          · intro h
            have hr : r ≤ rest.length := by simpa using h
            simp [seqByteArrayGo, (ih (i + 1) rest).1 hr, Except.map]
          · intro h
            have hr : rest.length < r := by simpa using h
            have hthis := (ih (i + 1) rest).2 hr
            have harith : i + 1 + rest.length = i + (rest.length + 1) := by omega
            simp [seqByteArrayGo, hthis, List.length_cons, harith, Except.map]

/-- C4 counterexample: the generic sequence `[3, 4]` offers 2 bytes, which
differs from the expected size 1, yet the decode succeeds with the first
byte instead of failing with a length error — `ArrayVisitor::visit_seq`
reads exactly `N` elements and leaves surplus elements unread. -/
theorem bytesArray_overlong_seq_counterexample :
    (BytesInput.byteSeq [Except.ok 3, Except.ok 4]).len ≠ 1 ∧
    bytesArrayDeserialize 1 (BytesInput.byteSeq [Except.ok 3, Except.ok 4]) =
      Except.ok [3] := by
  exact ⟨by decide, rfl⟩

/-- C4 (amended): decoding `[u8; N]` through `Bytes` accepts a byte blob or
string of exactly `N` bytes, or a generic sequence providing at least `N`
successfully decoded bytes, of which exactly the first `N` are read (surplus
elements are not rejected by the adapter); a blob or string whose length
differs from `N` fails with a length error naming the expected size `N`, and
a sequence exhausted after `i < N` elements fails with a length error
reporting `i` against the same expectation. -/
theorem bytesArray_deserialize_length_spec (N : Nat) :
    (∀ bs : List Nat, bs.length = N →
      bytesArrayDeserialize N (BytesInput.borrowedBytes bs) = Except.ok bs ∧
      bytesArrayDeserialize N (BytesInput.byteBuf bs) = Except.ok bs ∧
      bytesArrayDeserialize N (BytesInput.transientBytes bs) = Except.ok bs ∧
      bytesArrayDeserialize N (BytesInput.borrowedStr bs) = Except.ok bs ∧
      bytesArrayDeserialize N (BytesInput.ownedStr bs) = Except.ok bs ∧
      bytesArrayDeserialize N (BytesInput.transientStr bs) = Except.ok bs) ∧
    (∀ bs : List Nat, bs.length ≠ N →
      bytesArrayDeserialize N (BytesInput.borrowedBytes bs) =
        Except.error (SerdeError.invalidLength bs.length (expectedByteArrayMsg N)) ∧
      bytesArrayDeserialize N (BytesInput.byteBuf bs) =
        Except.error (SerdeError.invalidLength bs.length (expectedByteArrayMsg N)) ∧
      bytesArrayDeserialize N (BytesInput.transientBytes bs) =
        Except.error (SerdeError.invalidLength bs.length (expectedByteArrayMsg N)) ∧
      bytesArrayDeserialize N (BytesInput.borrowedStr bs) =
        Except.error (SerdeError.invalidLength bs.length (expectedByteArrayMsg N)) ∧
      bytesArrayDeserialize N (BytesInput.ownedStr bs) =
        Except.error (SerdeError.invalidLength bs.length (expectedByteArrayMsg N)) ∧
      bytesArrayDeserialize N (BytesInput.transientStr bs) =
        Except.error (SerdeError.invalidLength bs.length (expectedByteArrayMsg N))) ∧
    (∀ xs : List Nat, N ≤ xs.length →
      bytesArrayDeserialize N (BytesInput.byteSeq (xs.map Except.ok)) =
        Except.ok (xs.take N)) ∧
    (∀ xs : List Nat, xs.length < N →
      bytesArrayDeserialize N (BytesInput.byteSeq (xs.map Except.ok)) =
        Except.error (SerdeError.invalidLength xs.length (expectedByteArrayMsg N))) := by
  refine ⟨fun bs hlen => ?_, fun bs hlen => ?_, fun xs hle => ?_, fun xs hlt => ?_⟩
  · simp [bytesArrayDeserialize, visitBytesArray, hlen]
  · simp [bytesArrayDeserialize, visitBytesArray, hlen]
  · exact (seqByteArrayGo_ok N N 0 xs).1 hle
  · have := (seqByteArrayGo_ok N N 0 xs).2 hlt
    simpa using this

/-- Witness for the amended C4: for `N = 2`, a 2-byte blob decodes, a 1-byte
blob fails with the length error, a 3-element sequence yields the first two
bytes, and a 1-element sequence fails reporting 1 read element. -/
theorem bytesArray_deserialize_length_spec_witness :
    bytesArrayDeserialize 2 (BytesInput.borrowedBytes [1, 2]) = Except.ok [1, 2] ∧
    bytesArrayDeserialize 2 (BytesInput.byteBuf [1]) =
      Except.error (SerdeError.invalidLength 1 (expectedByteArrayMsg 2)) ∧
    bytesArrayDeserialize 2 (BytesInput.byteSeq [Except.ok 1, Except.ok 2, Except.ok 3]) =
      Except.ok [1, 2] ∧
    bytesArrayDeserialize 2 (BytesInput.byteSeq [Except.ok 1]) =
      Except.error (SerdeError.invalidLength 1 (expectedByteArrayMsg 2)) :=
  ⟨((bytesArray_deserialize_length_spec 2).1 [1, 2] rfl).1,
    ((bytesArray_deserialize_length_spec 2).2.1 [1] (by decide)).2.1,
    (bytesArray_deserialize_length_spec 2).2.2.1 [1, 2, 3] (by decide),
    (bytesArray_deserialize_length_spec 2).2.2.2 [1] (by decide)⟩

/-- Model of `SliceVisitor` under `deserialize_bytes`: only
`visit_borrowed_bytes` and `visit_borrowed_str` are implemented, so every
other shape falls through serde's default visitor methods, which reject with
an invalid-type error. -/
def bytesSliceDeserialize : BytesInput → Except SerdeError (List Nat)
  | BytesInput.borrowedBytes bs => Except.ok bs
  | BytesInput.borrowedStr bs => Except.ok bs
  | BytesInput.byteBuf _ => Except.error (SerdeError.invalidType "bytes")
  | BytesInput.transientBytes _ => Except.error (SerdeError.invalidType "bytes")
  | BytesInput.ownedStr _ => Except.error (SerdeError.invalidType "bytes")
  | BytesInput.transientStr _ => Except.error (SerdeError.invalidType "bytes")
  | BytesInput.byteSeq _ => Except.error (SerdeError.invalidType "bytes")

/-- Model of `Bytes::deserialize` for `&[u8; N]`: decode a borrowed slice
with `SliceVisitor`, then `try_into`, mapped on failure to an
`invalid_length` error naming the `ArrayVisitor::<N>` expectation. -/
def bytesRefArrayDeserialize (N : Nat) (input : BytesInput) :
    Except SerdeError (List Nat) :=
  match bytesSliceDeserialize input with
  | Except.error e => Except.error e
  | Except.ok bs =>
      if bs.length = N then Except.ok bs
      else Except.error (SerdeError.invalidLength bs.length (expectedByteArrayMsg N))

/-- C5: decoding `&[u8]` through `Bytes` succeeds exactly on the zero-copy
shapes — a borrowed byte blob or borrowed text — and fails with an error for
every other source shape (owned bytes, owned string, transient bytes,
transient string, generic sequence); the `&[u8; N]` decode likewise succeeds
only on a borrowed shape, of the right length. -/
theorem bytesSlice_borrow_only_spec :
    (∀ bs : List Nat,
      bytesSliceDeserialize (BytesInput.borrowedBytes bs) = Except.ok bs ∧
      bytesSliceDeserialize (BytesInput.borrowedStr bs) = Except.ok bs) ∧
    (∀ input : BytesInput, (bytesSliceDeserialize input).isOk = true →
      ∃ bs, input = BytesInput.borrowedBytes bs ∨ input = BytesInput.borrowedStr bs) ∧
    (∀ bs : List Nat,
      bytesSliceDeserialize (BytesInput.byteBuf bs) =
        Except.error (SerdeError.invalidType "bytes") ∧
      bytesSliceDeserialize (BytesInput.transientBytes bs) =
        Except.error (SerdeError.invalidType "bytes") ∧
      bytesSliceDeserialize (BytesInput.ownedStr bs) =
        Except.error (SerdeError.invalidType "bytes") ∧
      bytesSliceDeserialize (BytesInput.transientStr bs) =
        Except.error (SerdeError.invalidType "bytes")) ∧
    (∀ items, bytesSliceDeserialize (BytesInput.byteSeq items) =
      Except.error (SerdeError.invalidType "bytes")) ∧
    (∀ (N : Nat) (input : BytesInput), (bytesRefArrayDeserialize N input).isOk = true →
      ∃ bs, (input = BytesInput.borrowedBytes bs ∨ input = BytesInput.borrowedStr bs) ∧
        bs.length = N) := by
  refine ⟨fun bs => ⟨rfl, rfl⟩, fun input h => ?_, fun bs => ⟨rfl, rfl, rfl, rfl⟩,
    fun items => rfl, fun N input h => ?_⟩
  · cases input with
    | borrowedBytes bs => exact ⟨bs, Or.inl rfl⟩
    | borrowedStr bs => exact ⟨bs, Or.inr rfl⟩
    | byteBuf bs => simp [bytesSliceDeserialize, Except.isOk, Except.toBool] at h
    | transientBytes bs => simp [bytesSliceDeserialize, Except.isOk, Except.toBool] at h
    | ownedStr bs => simp [bytesSliceDeserialize, Except.isOk, Except.toBool] at h
    | transientStr bs => simp [bytesSliceDeserialize, Except.isOk, Except.toBool] at h
    | byteSeq items => simp [bytesSliceDeserialize, Except.isOk, Except.toBool] at h
  · cases input with
    | borrowedBytes bs =>
        refine ⟨bs, Or.inl rfl, ?_⟩
        by_cases hlen : bs.length = N
        · exact hlen
        · simp [bytesRefArrayDeserialize, bytesSliceDeserialize, hlen, Except.isOk, Except.toBool] at h
    | borrowedStr bs =>
        refine ⟨bs, Or.inr rfl, ?_⟩
        by_cases hlen : bs.length = N
        · exact hlen
        · simp [bytesRefArrayDeserialize, bytesSliceDeserialize, hlen, Except.isOk, Except.toBool] at h
    | byteBuf bs =>
        simp [bytesRefArrayDeserialize, bytesSliceDeserialize, Except.isOk, Except.toBool] at h
    | transientBytes bs =>
        simp [bytesRefArrayDeserialize, bytesSliceDeserialize, Except.isOk, Except.toBool] at h
    | ownedStr bs =>
        simp [bytesRefArrayDeserialize, bytesSliceDeserialize, Except.isOk, Except.toBool] at h
    | transientStr bs =>
        simp [bytesRefArrayDeserialize, bytesSliceDeserialize, Except.isOk, Except.toBool] at h
    | byteSeq items =>
        simp [bytesRefArrayDeserialize, bytesSliceDeserialize, Except.isOk, Except.toBool] at h

/-- Witness for C5: a borrowed 2-byte blob decodes as a slice and as a
`&[u8; 2]`, the owned-buffer shape fails, and the borrow-only implications
are instantiated at those concrete inputs. -/
theorem bytesSlice_borrow_only_spec_witness :
    bytesSliceDeserialize (BytesInput.borrowedBytes [1, 2]) = Except.ok [1, 2] ∧
    (∃ bs, BytesInput.borrowedBytes ([1, 2] : List Nat) = BytesInput.borrowedBytes bs ∨
      BytesInput.borrowedBytes ([1, 2] : List Nat) = BytesInput.borrowedStr bs) ∧
    bytesSliceDeserialize (BytesInput.byteBuf [1, 2]) =
      Except.error (SerdeError.invalidType "bytes") ∧
    (∃ bs, (BytesInput.borrowedBytes ([1, 2] : List Nat) = BytesInput.borrowedBytes bs ∨
        BytesInput.borrowedBytes ([1, 2] : List Nat) = BytesInput.borrowedStr bs) ∧
      bs.length = 2) :=
  ⟨(bytesSlice_borrow_only_spec.1 [1, 2]).1,
    bytesSlice_borrow_only_spec.2.1 (BytesInput.borrowedBytes [1, 2]) rfl,
    (bytesSlice_borrow_only_spec.2.2.1 [1, 2]).1,
    bytesSlice_borrow_only_spec.2.2.2.2 2 (BytesInput.borrowedBytes [1, 2]) rfl⟩

/-! ## Fold adapter (`fold.rs`) -/

/-- Model of the `try_fold` in `FoldVisitor::visit_seq`: combine the element
decodes left-to-right into the accumulator, propagating the first element
failure. -/
def foldLoop {T A : Type} (add : A → T → A) :
    A → List (Except SerdeError T) → Except SerdeError A
  | acc, [] => Except.ok acc
  | _, Except.error e :: _ => Except.error e
  | acc, Except.ok x :: rest => foldLoop add (add acc x) rest

/-- Model of `Fold::<T, A, F>::deserialize`: `deserialize_seq` drives
`FoldVisitor`, which folds the elements decoded through the inner adapter
`F` with the accumulator addition `add`, starting from the accumulator
default `dflt`. -/
def foldDeserialize {T A : Type} (F : Adapter T) (add : A → T → A) (dflt : A) :
    SValue → Except SerdeError A
  | SValue.vseq items => foldLoop add dflt (items.map F.de)
  | _ => Except.error (SerdeError.invalidType "a sequence")

theorem foldLoop_map_ok {T A : Type} (add : A → T → A) :
    ∀ (xs : List T) (acc : A),
      foldLoop add acc (xs.map Except.ok) = Except.ok (xs.foldl add acc) := by
  intro xs
  induction xs with
  | nil => intro acc; rfl
  | cons x rest ih => intro acc; simp [foldLoop, List.foldl_cons, ih]

/-- C6: the `Fold` adapter decode combines the successfully decoded sequence
elements left-to-right with the accumulator addition starting from the
accumulator default; the empty sequence yields the default, and the sequence
`[1, 2, 3]` under integer addition from default `0` yields `6`. -/
theorem fold_deserialize_spec :
    (∀ (T A : Type) (F : Adapter T) (add : A → T → A) (dflt : A)
        (vs : List SValue) (xs : List T), vs.map F.de = xs.map Except.ok →
      foldDeserialize F add dflt (SValue.vseq vs) = Except.ok (xs.foldl add dflt)) ∧
    (∀ (T A : Type) (F : Adapter T) (add : A → T → A) (dflt : A),
      foldDeserialize F add dflt (SValue.vseq []) = Except.ok dflt) ∧
    foldDeserialize IdIntAdapter (fun a x => a + x) 0
        (SValue.vseq [SValue.vint 1, SValue.vint 2, SValue.vint 3]) =
      Except.ok 6 := by
  refine ⟨fun T A F add dflt vs xs h => ?_, fun T A F add dflt => rfl, rfl⟩
  show foldLoop add dflt (vs.map F.de) = Except.ok (xs.foldl add dflt)
  rw [h, foldLoop_map_ok]

/-- Witness for C6: the general fold statement applied to the concrete
stream `[4, 5]` under integer addition. -/
theorem fold_deserialize_spec_witness :
    foldDeserialize IdIntAdapter (fun a x => a + x) 0
        (SValue.vseq [SValue.vint 4, SValue.vint 5]) =
      Except.ok (([4, 5] : List Int).foldl (fun a x => a + x) 0) :=
  fold_deserialize_spec.1 Int Int IdIntAdapter (fun a x => a + x) 0
    [SValue.vint 4, SValue.vint 5] [4, 5] rfl

/-! ## Snapshot adapters (`mutex.rs`, `rwlock.rs`) -/

/-- Model of `std::sync::Mutex<T>` as observable by a single
serialization call: the current value, whether the lock is currently held,
and whether it is poisoned. -/
structure StdMutex (T : Type) where
  value : T
  locked : Bool
  poisoned : Bool

/-- Model of `Mutex::<F>::serialize` (`SerializeWith<std::sync::Mutex<T>>`):
a single non-blocking `try_lock`, whose failure (lock currently held, or
poisoned) is mapped to a custom serialization error; on success the guarded
value is serialized with the inner adapter. -/
def mutexSerialize {T : Type} (F : Adapter T) (m : StdMutex T) :
    Except SerdeError SValue :=
  if m.locked || m.poisoned then Except.error (SerdeError.custom "lock unavailable")
  else Except.ok (F.ser m.value)

/-- Model of `Mutex::<F>::deserialize`: decode the inner value, then wrap it
in a fresh mutex, which is unlocked and unpoisoned. -/
def mutexDeserialize {T : Type} (F : Adapter T) (v : SValue) :
    Except SerdeError (StdMutex T) :=
  (F.de v).map (fun x => ⟨x, false, false⟩)

/-- Model of `std::sync::RwLock<T>` as observable by a single serialization
call: the current value, how many readers currently hold it, whether a
writer holds it, and whether it is poisoned. -/
structure StdRwLock (T : Type) where
  value : T
  readers : Nat
  writerHeld : Bool
  poisoned : Bool

/-- Model of `RwLock::<F>::serialize`
(`SerializeWith<std::sync::RwLock<T>>`): a single non-blocking `try_read`,
which succeeds alongside any number of concurrent readers and fails (mapped
to a custom serialization error) exactly when a writer holds the lock or the
lock is poisoned; on success the guarded value is serialized with the inner
adapter. -/
def rwLockSerialize {T : Type} (F : Adapter T) (l : StdRwLock T) :
    Except SerdeError SValue :=
  if l.writerHeld || l.poisoned then Except.error (SerdeError.custom "lock unavailable")
  else Except.ok (F.ser l.value)

/-- Model of `RwLock::<F>::deserialize`: decode the inner value, then wrap
it in a fresh lock with no readers, no writer, and no poison. -/
def rwLockDeserialize {T : Type} (F : Adapter T) (v : SValue) :
    Except SerdeError (StdRwLock T) :=
  (F.de v).map (fun x => ⟨x, 0, false, false⟩)

/-- C7: encoding a lock-wrapped value attempts one non-blocking acquisition
(the serialize function is a single `try_lock`/`try_read`, with no retry)
and fails with a custom error when the lock is currently held; when it is
free and unpoisoned the encode snapshots the current value through the inner
adapter; decoding succeeds whenever the inner decode succeeds and constructs
a fresh, unlocked, unpoisoned wrapper around the decoded value (and fails
exactly when the inner decode fails). -/
theorem lock_snapshot_spec {T : Type} (F : Adapter T) :
    (∀ m : StdMutex T, m.locked = true →
      mutexSerialize F m = Except.error (SerdeError.custom "lock unavailable")) ∧
    (∀ m : StdMutex T, m.locked = false → m.poisoned = false →
      mutexSerialize F m = Except.ok (F.ser m.value)) ∧
    (∀ l : StdRwLock T, l.writerHeld = true →
      rwLockSerialize F l = Except.error (SerdeError.custom "lock unavailable")) ∧
    (∀ (v : SValue) (x : T), F.de v = Except.ok x →
      mutexDeserialize F v = Except.ok ⟨x, false, false⟩ ∧
      rwLockDeserialize F v = Except.ok ⟨x, 0, false, false⟩) ∧
    (∀ (v : SValue) (e : SerdeError), F.de v = Except.error e →
      mutexDeserialize F v = Except.error e) := by
  refine ⟨fun m hm => ?_, fun m hm hp => ?_, fun l hl => ?_,
    fun v x hv => ?_, fun v e hv => ?_⟩
  · simp [mutexSerialize, hm]
  · simp [mutexSerialize, hm, hp]
  · simp [rwLockSerialize, hl]
  · constructor
    · simp [mutexDeserialize, hv]
      rfl
    · simp [rwLockDeserialize, hv]
      rfl
  · simp [mutexDeserialize, hv]
    rfl

/-- Witness for C7: a held mutex fails to encode, a free one encodes its
value, a writer-held rwlock fails to encode, and decoding an integer yields
fresh unlocked wrappers. -/
theorem lock_snapshot_spec_witness :
    mutexSerialize IdIntAdapter ⟨7, true, false⟩ =
      Except.error (SerdeError.custom "lock unavailable") ∧
    mutexSerialize IdIntAdapter ⟨7, false, false⟩ =
      Except.ok (IdIntAdapter.ser 7) ∧
    rwLockSerialize IdIntAdapter ⟨7, 0, true, false⟩ =
      Except.error (SerdeError.custom "lock unavailable") ∧
    mutexDeserialize IdIntAdapter (SValue.vint 7) = Except.ok ⟨7, false, false⟩ ∧
    rwLockDeserialize IdIntAdapter (SValue.vint 7) = Except.ok ⟨7, 0, false, false⟩ :=
  ⟨(lock_snapshot_spec IdIntAdapter).1 ⟨7, true, false⟩ rfl,
    (lock_snapshot_spec IdIntAdapter).2.1 ⟨7, false, false⟩ rfl rfl,
    (lock_snapshot_spec IdIntAdapter).2.2.1 ⟨7, 0, true, false⟩ rfl,
    ((lock_snapshot_spec IdIntAdapter).2.2.2.1 (SValue.vint 7) 7 rfl).1,
    ((lock_snapshot_spec IdIntAdapter).2.2.2.1 (SValue.vint 7) 7 rfl).2⟩

/-- C10: the `RwLock` snapshot adapter encodes through a non-blocking
`try_read`, so serialization succeeds and reflects the current value for any
number of concurrently held read locks, and fails with a custom error
exactly when a writer holds the lock or the lock is poisoned. -/
theorem rwlock_try_read_spec {T : Type} (F : Adapter T) (l : StdRwLock T) :
    (l.writerHeld = false → l.poisoned = false →
      rwLockSerialize F l = Except.ok (F.ser l.value)) ∧
    (l.writerHeld = true ∨ l.poisoned = true →
      rwLockSerialize F l = Except.error (SerdeError.custom "lock unavailable")) := by
  refine ⟨fun hw hp => ?_, fun h => ?_⟩
  · simp [rwLockSerialize, hw, hp]
  · rcases h with hw | hp
    · simp [rwLockSerialize, hw]
    · simp [rwLockSerialize, hp]

/-- Witness for C10: with three concurrent readers and no writer, the
encode succeeds with the current value; with a writer it fails. -/
theorem rwlock_try_read_spec_witness :
    rwLockSerialize IdIntAdapter ⟨42, 3, false, false⟩ =
      Except.ok (IdIntAdapter.ser 42) ∧
    rwLockSerialize IdIntAdapter ⟨42, 3, true, false⟩ =
      Except.error (SerdeError.custom "lock unavailable") :=
  ⟨(rwlock_try_read_spec IdIntAdapter ⟨42, 3, false, false⟩).1 rfl rfl,
    (rwlock_try_read_spec IdIntAdapter ⟨42, 3, true, false⟩).2 (Or.inl rfl)⟩

/-! ## Human-readable switch (`human.rs`) -/

/-- Model of `HumanOr::<F, G>::serialize`: the adapter queries
`Serializer::is_human_readable` on the serializer handed to it for this call
and delegates to `F` when the format is human-readable, to `G` otherwise. -/
def humanOrSerialize {T : Type} (F G : Adapter T) (isHumanReadable : Bool) (v : T) :
    SValue :=
  if isHumanReadable then F.ser v else G.ser v

/-- Model of `HumanOr::<F, G>::deserialize`: the adapter queries
`Deserializer::is_human_readable` on the deserializer handed to it for this
call and delegates accordingly. -/
def humanOrDeserialize {T : Type} (F G : Adapter T) (isHumanReadable : Bool)
    (sv : SValue) : Except SerdeError T :=
  if isHumanReadable then F.de sv else G.de sv

/-- C8: on every encode and decode call, `HumanOr<F, G>` routes by the
human-readable flag of the serializer or deserializer of that very call: a
human-readable format goes through `F` and a binary format through `G`; the
same fixed adapter pair invoked against formats with different flags routes
per call, as both branches hold simultaneously for the same `F` and `G`. -/
theorem humanOr_routing_spec {T : Type} (F G : Adapter T) (v w : T)
    (sv sw : SValue) :
    humanOrSerialize F G true v = F.ser v ∧
    humanOrSerialize F G false w = G.ser w ∧
    humanOrDeserialize F G true sv = F.de sv ∧
    humanOrDeserialize F G false sw = G.de sw :=
  ⟨rfl, rfl, rfl, rfl⟩

/-! ## Binder wrapper (`lib.rs`, `WithEncoding`) -/

/-- Model of `WithEncoding<F, T>`: a value paired with a phantom adapter
type `F`. -/
structure WithEncoding (F : Type) (T : Type) where
  value : T

/-- Model of `WithEncoding::into_inner`: consumes the binder and returns the
owned value. -/
def WithEncoding.intoInner {F T : Type} (w : WithEncoding F T) : T := w.value

/-- Model of `impl From<T> for WithEncoding<F, T>`: wraps the value; the
construction is total and stores the value unchanged. -/
def WithEncoding.ofValue (F : Type) {T : Type} (v : T) : WithEncoding F T :=
  ⟨v⟩

/-- C9: binder identity — constructing the binder from a value never fails
(it is a total function), does not alter the value, and unwrapping with
`into_inner` returns exactly the original value. -/
theorem withEncoding_binder_identity (F : Type) {T : Type} (v : T) :
    (WithEncoding.ofValue F v).intoInner = v ∧
    (WithEncoding.ofValue F v).value = v :=
  ⟨rfl, rfl⟩

end Serdapt
